import Mathlib

/-!
Verification of the material/texture resolution and scene assembly core of the
obj2glb repository (src/obj2glb/materials.py, converter.py, utils.py), shallowly
embedded in Lean 4.

Numbers: every numeric value this core manipulates is either a decimal literal
parsed from a material file or the difference 1.0 - x of such a value, so the
Python floats are modelled exactly by the type Dec of decimal rationals
(an integer scaled by a negative power of ten), kept in a canonical form so
that structural equality coincides with numeric equality; Dec.toRat embeds the
values into ℚ.  The filesystem and the external image codec are modelled as
explicit function records passed to the embedded operations; fallible code
returns Except.
-/

set_option maxHeartbeats 1000000

/-- A decimal rational: num / 10 ^ exp.  Canonical when exp = 0 or num is not
divisible by 10, which Dec.normalize enforces; every operation in the embedded
core produces canonical values, so structural equality is numeric equality. -/
structure Dec where
  num : Int
  exp : Nat
deriving DecidableEq, Repr

/-- Strip common factors of ten; the fuel argument bounds the loop so the
recursion is structural. -/
def Dec.normAux : Int → Nat → Nat → Dec
  | n, e, 0 => ⟨n, e⟩
  | n, e, fuel + 1 =>
    if e = 0 then ⟨n, 0⟩
    else if n % 10 = 0 then Dec.normAux (n / 10) (e - 1) fuel
    else ⟨n, e⟩

/-- Canonical decimal for num / 10 ^ exp. -/
def Dec.normalize (n : Int) (e : Nat) : Dec := Dec.normAux n e e

/-- Exact subtraction of decimals (the only arithmetic the core performs,
for the Tr directive's 1.0 - value). -/
def Dec.sub (a b : Dec) : Dec :=
  Dec.normalize (a.num * ((10 ^ b.exp : Nat) : Int) - b.num * ((10 ^ a.exp : Nat) : Int))
    (a.exp + b.exp)

instance : Sub Dec := ⟨Dec.sub⟩

instance (n : Nat) : OfNat Dec n := ⟨⟨n, 0⟩⟩

instance : OfScientific Dec :=
  ⟨fun m b e => if b then Dec.normalize m e else ⟨(m : Int) * ((10 ^ e : Nat) : Int), 0⟩⟩

/-- The rational value of a decimal. -/
def Dec.toRat (d : Dec) : ℚ := (d.num : ℚ) / ((10 ^ d.exp : Nat) : ℚ)

/-- Whitespace characters recognised by the str.strip and str.split methods of
the source language (ASCII subset; the material files in scope are ASCII). -/
def isPySpace (c : Char) : Bool :=
  c == ' ' || c == '\t' || c == '\n' || c == '\r' || c == '\x0b' || c == '\x0c'

/-- Model of str.strip(): drop leading and trailing whitespace. -/
def stripChars (l : List Char) : List Char :=
  ((l.dropWhile isPySpace).reverse.dropWhile isPySpace).reverse

/-- Worker for whitespace splitting: accumulates the current token reversed. -/
def splitWSAux : List Char → List Char → List (List Char)
  | [], acc => if acc.isEmpty then [] else [acc.reverse]
  | c :: cs, acc =>
    if isPySpace c then
      if acc.isEmpty then splitWSAux cs [] else acc.reverse :: splitWSAux cs []
    else splitWSAux cs (c :: acc)

/-- Model of str.split() with no separator: split on whitespace runs,
dropping empty tokens. -/
def pySplit (s : String) : List String :=
  (splitWSAux s.data []).map String.mk

/-- Model of str.split(None, 1): skip leading whitespace, take the first
whitespace-free token, then the remainder with its leading whitespace removed
(kept whole, including any internal or trailing whitespace). -/
def split1Chars (l : List Char) : List (List Char) :=
  let l1 := l.dropWhile isPySpace
  if l1.isEmpty then []
  else
    let tok := l1.takeWhile (fun c => !(isPySpace c))
    let rest := (l1.dropWhile (fun c => !(isPySpace c))).dropWhile isPySpace
    if rest.isEmpty then [tok] else [tok, rest]

/-- String-level wrapper for split1Chars. -/
def pySplit1 (s : String) : List String :=
  (split1Chars s.data).map String.mk

/-- Numeric value of a decimal digit character. -/
def digitVal (c : Char) : Nat := c.toNat - 48

/-- Value of a list of decimal digits, most significant first. -/
def digitsToNat (l : List Nat) : Nat := l.foldl (fun a d => a * 10 + d) 0

/-- Model of the float(str) conversion of the source language over exact
decimals: optional surrounding whitespace, optional sign, decimal digits with
an optional point (at least one digit required), and an optional exponent
part.  The special forms inf and nan, which have no exact value, and
digit-group underscores are outside the model; none of the verified
properties depends on them.  Returns none exactly where float(str) raises
ValueError. -/
def pyFloat (s : String) : Option Dec :=
  let cs0 := stripChars s.data
  let sgnSplit : Bool × List Char :=
    match cs0 with
    | '+' :: r => (false, r)
    | '-' :: r => (true, r)
    | r => (false, r)
  let cs1 := sgnSplit.2
  let intDs := cs1.takeWhile Char.isDigit
  let cs2 := cs1.dropWhile Char.isDigit
  let fracSplit : List Char × List Char :=
    match cs2 with
    | '.' :: r => (r.takeWhile Char.isDigit, r.dropWhile Char.isDigit)
    | r => ([], r)
  let fracDs := fracSplit.1
  let cs3 := fracSplit.2
  if intDs.isEmpty && fracDs.isEmpty then none
  else
    let mantNat : Nat :=
      digitsToNat (intDs.map digitVal) * 10 ^ fracDs.length + digitsToNat (fracDs.map digitVal)
    let mant : Int := if sgnSplit.1 then -(mantNat : Int) else (mantNat : Int)
    match cs3 with
    | [] => some (Dec.normalize mant fracDs.length)
    | e :: r =>
      if e == 'e' || e == 'E' then
        let esgnSplit : Bool × List Char :=
          match r with
          | '+' :: t => (true, t)
          | '-' :: t => (false, t)
          | t => (true, t)
        let eds := esgnSplit.2.takeWhile Char.isDigit
        let cs4 := esgnSplit.2.dropWhile Char.isDigit
        if eds.isEmpty || !cs4.isEmpty then none
        else
          let ev := digitsToNat (eds.map digitVal)
          if esgnSplit.1 then
            some (Dec.normalize (mant * ((10 ^ ev : Nat) : Int)) fracDs.length)
          else
            some (Dec.normalize mant (fracDs.length + ev))
      else none

/-- Embedding of MaterialHandler._parse_color (materials.py): split the value
on whitespace; three or more tokens give the first three as RGB, a single
token is replicated over the channels, and any failure (too few tokens or a
token float(str) rejects) yields the fixed default gray, never an error. -/
def parse_color (value : String) : List Dec :=
  let parts := pySplit value
  if 3 ≤ parts.length then
    match pyFloat (parts.getD 0 ""), pyFloat (parts.getD 1 ""), pyFloat (parts.getD 2 "") with
    | some a, some b, some c => [a, b, c]
    | _, _, _ => [0.8, 0.8, 0.8]
  else if parts.length = 1 then
    match pyFloat (parts.getD 0 "") with
    | some v => [v, v, v]
    | none => [0.8, 0.8, 0.8]
  else [0.8, 0.8, 0.8]

example : pyFloat "0.3" = some ⟨3, 1⟩ := by decide
example : pyFloat "0.7" = some ⟨7, 1⟩ := by decide
example : (0.7 : Dec) = ⟨7, 1⟩ := by decide
example : pyFloat "96.0" = some 96 := by decide
example : pyFloat "1e2" = some 100 := by decide
example : pyFloat "-2.5e-1" = some ⟨-25, 2⟩ := by decide
example : pyFloat "abc" = none := by decide
example : pyFloat "" = none := by decide
example : (1 : Dec) - 0.3 = 0.7 := by decide
example : Dec.toRat 0.7 = 7 / 10 := by
  have h : (0.7 : Dec) = ⟨7, 1⟩ := by decide
  rw [h]
  norm_num [Dec.toRat]
example : parse_color "1.0 0.5 0.25" = [1, 0.5, 0.25] := by decide
example : parse_color "0.5" = [0.5, 0.5, 0.5] := by decide
example : parse_color "invalid" = [0.8, 0.8, 0.8] := by decide
example : parse_color "" = [0.8, 0.8, 0.8] := by decide
example : parse_color "0.1 0.2" = [0.8, 0.8, 0.8] := by decide

/-- One material record of the MTL parser (materials.py, parse_mtl_file):
the property dictionary created by a newmtl directive. -/
structure MTLMat where
  ambient : List Dec
  diffuse : List Dec
  specular : List Dec
  shininess : Dec
  transparency : Dec
  textures : List (String × String)
deriving DecidableEq, Repr

/-- The defaults installed by a newmtl directive (materials.py lines 67-74). -/
def defaultMat : MTLMat :=
  { ambient := [0.2, 0.2, 0.2]
    diffuse := [0.8, 0.8, 0.8]
    specular := [1.0, 1.0, 1.0]
    shininess := 32.0
    transparency := 1.0
    textures := [] }

/-- Insert-or-overwrite for the insertion-ordered dictionaries of the source
language: an existing key keeps its position, a new key is appended. -/
def upsert {α : Type} (m : List (String × α)) (k : String) (v : α) : List (String × α) :=
  if m.any (fun p => p.1 == k) then m.map (fun p => if p.1 == k then (k, v) else p)
  else m ++ [(k, v)]

/-- In-place mutation of the record stored at key k (materials dictionary
subscript assignment); keys elsewhere are untouched. -/
def updateAt {α : Type} (m : List (String × α)) (k : String) (f : α → α) : List (String × α) :=
  m.map (fun p => if p.1 == k then (p.1, f p.2) else p)

/-- The scan state of parse_mtl_file: the accumulated materials dictionary and
the current material name (None before the first valid newmtl). -/
structure MTLState where
  materials : List (String × MTLMat)
  current : Option String
deriving DecidableEq, Repr

/-- The mutation a property directive applies to the current material record,
or none for an unknown directive (the elif chain of parse_mtl_file lines
78-126).  A failed float parse for Ns, d or Tr leaves the record unchanged. -/
def propUpdate (command value : String) : Option (MTLMat → MTLMat) :=
  if command = "Ka" then some (fun m => { m with ambient := parse_color value })
  else if command = "Kd" then some (fun m => { m with diffuse := parse_color value })
  else if command = "Ks" then some (fun m => { m with specular := parse_color value })
  else if command = "Ns" then
    some (fun m =>
      match pyFloat value with
      | some v => { m with shininess := v }
      | none => m)
  else if command = "d" ∨ command = "Tr" then
    some (fun m =>
      match pyFloat value with
      | some a => { m with transparency := if command = "Tr" then (1 : Dec) - a else a }
      | none => m)
  else if command = "map_Kd" then
    some (fun m => { m with textures := upsert m.textures "diffuse" value })
  else if command = "map_Bump" ∨ command = "bump" then
    some (fun m => { m with textures := upsert m.textures "normal" value })
  else if command = "map_Ks" then
    some (fun m => { m with textures := upsert m.textures "specular" value })
  else if command = "map_Ka" then
    some (fun m => { m with textures := upsert m.textures "ambient" value })
  else none

/-- Dispatch on the first token of a non-blank, non-comment line.  A newmtl
with a name starts a fresh default record (overwriting any prior record of
that name) and makes it current; a bare newmtl is skipped by the continue,
leaving the whole state - including the current material - unchanged;
property directives apply only when a current material is set (material
names are nonempty, so the truthiness test on current_material is exactly
the test against None). -/
def dispatch (st : MTLState) (parts : List String) : MTLState :=
  match parts with
  | [] => st
  | command :: rest =>
    if command = "newmtl" then
      match rest with
      | [] => st
      | name :: _ => { materials := upsert st.materials name defaultMat, current := some name }
    else
      match st.current with
      | none => st
      | some cur =>
        let value := rest.headD ""
        match propUpdate command value with
        | some f => { st with materials := updateAt st.materials cur f }
        | none => st

/-- Embedding of one iteration of the line loop of parse_mtl_file: strip the
line, skip blank lines and comments, split into command and remainder, and
dispatch. -/
def processLine (st : MTLState) (rawLine : String) : MTLState :=
  let line := stripChars rawLine.data
  if line.isEmpty then st
  else if line.headD ' ' == '#' then st
  else dispatch st ((split1Chars line).map String.mk)

/-- The scan starts with an empty dictionary and no current material. -/
def initState : MTLState := ⟨[], none⟩

/-- Embedding of the body of parse_mtl_file over the list of lines of the
file: left fold of the line step from the initial state. -/
def parse_mtl_lines (lines : List String) : List (String × MTLMat) :=
  (lines.foldl processLine initState).materials

/-- The material name a line contributes, if it is a valid newmtl line
(mirrors exactly the path of processLine that reaches the newmtl branch with
a name argument). -/
def lineNewmtlName (rawLine : String) : Option String :=
  let line := stripChars rawLine.data
  if line.isEmpty then none
  else if line.headD ' ' == '#' then none
  else
    match (split1Chars line).map String.mk with
    | command :: name :: _ => if command = "newmtl" then some name else none
    | _ => none

/-- The names of the valid newmtl lines of a file, in order. -/
def newmtlNames (lines : List String) : List String :=
  lines.filterMap lineNewmtlName

/-- Key insertion as the materials dictionary performs it: no change if
present, appended if new. -/
def insKey (ks : List String) (k : String) : List String :=
  if k ∈ ks then ks else ks ++ [k]

example :
    parse_mtl_lines ["newmtl A", "Kd 0.8 0.0 0.0", "Ns 96.0", "d 1.0"] =
      [("A", { defaultMat with diffuse := [0.8, 0, 0], shininess := 96, transparency := 1 })] := by
  decide

example :
    parse_mtl_lines ["# comment", "", "newmtl A", "map_Kd tex.png", "Tr 0.3"] =
      [("A", { defaultMat with textures := [("diffuse", "tex.png")], transparency := 0.7 })] := by
  decide

example : parse_mtl_lines ["Kd 1 0 0"] = [] := by decide

example :
    parse_mtl_lines ["newmtl A", "newmtl", "Kd 0.1 0.2 0.3"] =
      [("A", { defaultMat with diffuse := [0.1, 0.2, 0.3] })] := by decide

/-- A decoded image of the external codec, abstracted to its color mode. -/
structure Image where
  mode : String
deriving DecidableEq, Repr

/-- The filesystem and image codec as seen by load_texture: existence and
regular-file tests, and opening a path as an image, where none models the
codec raising (unreadable or undecodable file). -/
structure TexFS where
  pathExists : String → Bool
  isFile : String → Bool
  openImage : String → Option Image

/-- Final path component (pathlib name / os.path basename). -/
def lastComponent (l : List Char) : List Char :=
  (l.reverse.takeWhile (fun c => !(c == '/'))).reverse

/-- String-level basename. -/
def pathName (p : String) : String := String.mk (lastComponent p.data)

/-- Model of the pathlib / operator: an absolute right operand replaces the
left one. -/
def pathJoin (d f : String) : String :=
  match f.data with
  | '/' :: _ => f
  | _ => d ++ "/" ++ f

/-- Mode normalization of load_texture: anything other than RGB or RGBA is
converted to RGB. -/
def convertMode (img : Image) : Image :=
  if img.mode = "RGB" ∨ img.mode = "RGBA" then img else { mode := "RGB" }

/-- One candidate probe of load_texture: the path must exist and be a regular
file, and the codec must decode it; any failure (including an exception from
the open) moves on to the next candidate. -/
def tryCand (fs : TexFS) (p : String) : Option Image :=
  if fs.pathExists p && fs.isFile p then
    match fs.openImage p with
    | some img => some (convertMode img)
    | none => none
  else none

/-- Sequential probing: first successful candidate wins. -/
def tryPaths (fs : TexFS) : List String → Option Image
  | [] => none
  | p :: ps =>
    match tryCand fs p with
    | some img => some img
    | none => tryPaths fs ps

/-- The fixed candidate list of load_texture (materials.py lines 166-171):
the reference itself, the source directory joined with the reference, and the
source directory joined with the basename of the reference. -/
def textureCandidates (obj_dir texture_path : String) : List String :=
  [texture_path, pathJoin obj_dir texture_path, pathJoin obj_dir (pathName texture_path)]

/-- Embedding of MaterialHandler.load_texture: probe the three candidates in
order and return the first existing, readable, decodable image (mode
normalized), or none - never an error. -/
def load_texture (fs : TexFS) (obj_dir : String) (texture_path : String) : Option Image :=
  tryPaths fs (textureCandidates obj_dir texture_path)

/-- Inner loop of load_all_textures for one material: resolve each texture
slot, keeping only the slots whose reference loads. -/
def load_material_textures (fs : TexFS) (obj_dir : String)
    (texs : List (String × String)) : List (String × Image) :=
  texs.foldl
    (fun acc t =>
      match load_texture fs obj_dir t.2 with
      | some img => acc ++ [(t.1, img)]
      | none => acc)
    []

/-- Embedding of MaterialHandler.load_all_textures.  The input models the
materials dictionary, where each value may or may not carry a textures field
(the code guards on "textures" not in mat_props); a material with a textures
field gets an entry - created empty before its slots are probed - even when
no reference resolves. -/
def load_all_textures (fs : TexFS) (obj_dir : String)
    (materials : List (String × Option (List (String × String)))) :
    List (String × List (String × Image)) :=
  materials.foldl
    (fun acc p =>
      match p.2 with
      | none => acc
      | some texs => acc ++ [(p.1, load_material_textures fs obj_dir texs)])
    []

/-- The sibling MTL file as seen by parse_mtl_file: whether it exists, whether
reading it raises (permission or encoding error), and its lines. -/
structure MtlFile where
  fileExists : Bool
  readError : Bool
  lines : List String

/-- Embedding of MaterialHandler.parse_mtl_file including its guards: a
missing file and a read error both yield the empty dictionary rather than an
error. -/
def parse_mtl_file (m : MtlFile) : List (String × MTLMat) :=
  if !m.fileExists then []
  else if m.readError then []
  else parse_mtl_lines m.lines

/-- Embedding of MaterialHandler.create_default_material: the single
synthetic material (same literal defaults as a fresh newmtl record). -/
def create_default_material : List (String × MTLMat) :=
  [("default", defaultMat)]

/-- Everything process_materials consumes: the sibling material file (same
stem, .mtl extension, computed by with_suffix outside the model), the texture
filesystem and the source directory. -/
structure MtlEnv where
  mtl : MtlFile
  texFS : TexFS
  obj_dir : String

/-- Embedding of MaterialHandler.process_materials: if the sibling MTL file
exists and parses to a nonempty dictionary, load its textures and return
both; otherwise fall back to the single synthetic default material with no
textures. -/
def process_materials (env : MtlEnv) :
    List (String × MTLMat) × List (String × List (String × Image)) :=
  if env.mtl.fileExists then
    let materials := parse_mtl_file env.mtl
    if materials.isEmpty then (create_default_material, [])
    else
      (materials,
        load_all_textures env.texFS env.obj_dir (materials.map (fun p => (p.1, some p.2.textures))))
  else (create_default_material, [])

/-- The visual/material attribute of a mesh: either one the external loader
already attached, or the synthesized TextureVisuals(SimpleMaterial()). -/
inductive Visual
  | existing (tag : Nat)
  | defaultSimple
deriving DecidableEq, Repr

/-- A geometry group as converter.py sees it: its vertex count and its
optional visual/material attribute (none when the mesh lacks one). -/
structure GeomGroup where
  vertexCount : Nat
  visual : Option Visual
deriving DecidableEq, Repr

/-- The failure categories of a single-file conversion, one per distinct
raise/except branch of convert_obj_to_glb: FileNotFoundError, ValueError,
FileExistsError, the no-valid-geometry failure, a loader exception, and a
missing output after export. -/
inductive ConvError
  | NotFound
  | InvalidFormat
  | AlreadyExists
  | EmptyGeometry
  | LoadFailed
  | ExportFailed
deriving DecidableEq, Repr

/-- The material-assignment pass of convert_obj_to_glb (lines 79-88): a mesh
that already carries a visual material keeps it, any other gets the
synthesized default. -/
def assignDefaults (meshes : List GeomGroup) : List GeomGroup :=
  meshes.map (fun m => if m.visual.isSome then m else { m with visual := some Visual.defaultSimple })

/-- Scene assembly (converter.py lines 66-88): fail with the empty-geometry
condition when the mesh list is empty or every mesh has zero vertices,
otherwise return the meshes with materials guaranteed. -/
def assemble (meshes : List GeomGroup) : Except ConvError (List GeomGroup) :=
  if meshes.isEmpty || meshes.all (fun m => m.vertexCount == 0) then
    Except.error ConvError.EmptyGeometry
  else Except.ok (assignDefaults meshes)

/-- The filesystem as seen by the path validators. -/
structure FileSys where
  pathExists : String → Bool
  isFile : String → Bool

/-- Index of the last dot of a name, if any. -/
def lastDotIndex (l : List Char) : Option Nat :=
  (l.reverse.findIdx? (fun c => c == '.')).map (fun j => l.length - 1 - j)

/-- Model of pathlib suffix: the extension of the final component, dot
included; empty when the only dot is leading (hidden file) or trailing. -/
def pathSuffix (p : String) : String :=
  let name := lastComponent p.data
  match lastDotIndex name with
  | none => ""
  | some i => if 0 < i ∧ i + 1 < name.length then String.mk (name.drop i) else ""

/-- ASCII lower-casing of str.lower() as the validators use it (suffixes are
ASCII). -/
def lowerChar (c : Char) : Char :=
  if 'A' ≤ c ∧ c ≤ 'Z' then Char.ofNat (c.toNat + 32) else c

/-- String-level lower-casing. -/
def pyLower (s : String) : String := String.mk (s.data.map lowerChar)

/-- Embedding of utils.validate_input_file with the exception types mapped to
their categories: FileNotFoundError when the path does not exist, ValueError
(InvalidFormat) when it is not a regular file or does not carry the .obj
suffix case-insensitively. -/
def validate_input_file (fs : FileSys) (filepath : String) : Except ConvError String :=
  if !(fs.pathExists filepath) then Except.error ConvError.NotFound
  else if !(fs.isFile filepath) then Except.error ConvError.InvalidFormat
  else if pyLower (pathSuffix filepath) ≠ ".obj" then Except.error ConvError.InvalidFormat
  else Except.ok filepath

/-- Embedding of utils.validate_output_file: FileExistsError (AlreadyExists)
when the output exists and overwrite is off, ValueError (InvalidFormat) when
the suffix is not .glb. -/
def validate_output_file (fs : FileSys) (filepath : String) (overwrite : Bool) :
    Except ConvError String :=
  if fs.pathExists filepath && !overwrite then Except.error ConvError.AlreadyExists
  else if pyLower (pathSuffix filepath) ≠ ".glb" then Except.error ConvError.InvalidFormat
  else Except.ok filepath

/-- The whole environment of one convert_obj_to_glb call: paths and
filesystem, the material environment, what the external loader produced (or
that it raised), and whether the external export produced the output file.
outputPathFails models the batch loop's per-file get_output_path step
(utils.py line 162): its mkdir(parents=True, exist_ok=True) can raise (a
permission error, or a file standing where a directory is needed), and that
exception is raised outside convert_obj_to_glb's catch-all. -/
structure ConvEnv where
  fs : FileSys
  input_path : String
  output_path : String
  overwrite : Bool
  mtlEnv : MtlEnv
  loadFails : Bool
  loadedMeshes : List GeomGroup
  exportOk : Bool
  outputPathFails : Bool

/-- Embedding of convert_obj_to_glb: validate both paths, process materials
(never fails), load, assemble, export.  Each except branch of the source
turns one exception type into one error category of the result. -/
def convert_obj_to_glb (env : ConvEnv) : Except ConvError Unit :=
  match validate_input_file env.fs env.input_path with
  | Except.error e => Except.error e
  | Except.ok _ =>
    match validate_output_file env.fs env.output_path env.overwrite with
    | Except.error e => Except.error e
    | Except.ok _ =>
      let _mats := process_materials env.mtlEnv
      if env.loadFails then Except.error ConvError.LoadFailed
      else
        match assemble env.loadedMeshes with
        | Except.error e => Except.error e
        | Except.ok _scene =>
          if env.exportOk then Except.ok () else Except.error ConvError.ExportFailed

/-- The boolean outcome convert_obj_to_glb reports to the batch loop (every
exception is caught inside the call and becomes False). -/
def convertOk (env : ConvEnv) : Bool :=
  match convert_obj_to_glb env with
  | Except.ok _ => true
  | Except.error _ => false

/-- The body of the batch loop (converter.py lines 193-224): for each file,
first its output path is generated - if that per-file get_output_path step
raises, the exception escapes the loop (none) - otherwise the file's
conversion outcome is tallied and the loop continues. -/
def convert_batch_loop : List ConvEnv → Nat → Nat → Option (Nat × Nat)
  | [], s, f => some (s, f)
  | e :: rest, s, f =>
    if e.outputPathFails then none
    else if convertOk e then convert_batch_loop rest (s + 1) f
    else convert_batch_loop rest s (f + 1)

/-- Embedding of convert_batch over the discovered source files (each with
its per-file conversion environment): no files found returns (0, 0); the
loop tallies every file unless a per-file output-path step raises, in which
case the exception reaches the outer except-Exception handler (converter.py
lines 240-243), which discards the tallies and returns (0, 0). -/
def convert_batch (files : List ConvEnv) : Nat × Nat :=
  if files.isEmpty then (0, 0)
  else
    match convert_batch_loop files 0 0 with
    | some counts => counts
    | none => (0, 0)

/-- A single-file environment whose conversion succeeds end to end: existing
regular input a.obj, overwritable output a.glb, no sibling material file, one
nonempty mesh, successful export, and a per-file output-path step that does
not raise. -/
def envConvertOk : ConvEnv :=
  { fs := ⟨fun _ => true, fun _ => true⟩
    input_path := "a.obj"
    output_path := "a.glb"
    overwrite := true
    mtlEnv := ⟨⟨false, false, []⟩, ⟨fun _ => false, fun _ => false, fun _ => none⟩, "d"⟩
    loadFails := false
    loadedMeshes := [⟨3, none⟩]
    exportOk := true
    outputPathFails := false }

/-- The same conversion for a second file b.obj, except that generating its
output path raises inside the batch loop (the mkdir of get_output_path). -/
def envMkdirRaises : ConvEnv :=
  { envConvertOk with input_path := "b.obj", output_path := "b.glb", outputPathFails := true }

/-- C1 counterexample: in the file [newmtl A, newmtl, Kd 0.1 0.2 0.3] the
property line after the bare newmtl is not dropped - removing it changes the
result, and material A ends up with the parsed diffuse color - so the claim
that a bare newmtl clears the current material and drops subsequent property
lines is false on the code. -/
theorem C1_counterexample :
    parse_mtl_lines ["newmtl A", "newmtl", "Kd 0.1 0.2 0.3"] =
      [("A", { defaultMat with diffuse := [0.1, 0.2, 0.3] })] ∧
    parse_mtl_lines ["newmtl A", "newmtl", "Kd 0.1 0.2 0.3"] ≠
      parse_mtl_lines ["newmtl A", "newmtl"] := by
  constructor
  · decide
  · decide

/-- C1 amended: a newmtl directive with no name argument is ignored without
creating a record and leaves the whole scan state - including the current
material - unchanged, so the rest of the file parses exactly as if the bare
line were absent; subsequent property directives therefore keep applying to
the previously current material, and are dropped only when no material was
current yet. -/
theorem C1_bare_newmtl_noop (st : MTLState) (rest : List String) :
    processLine st "newmtl" = st ∧
    List.foldl processLine st ("newmtl" :: rest) = List.foldl processLine st rest ∧
    parse_mtl_lines ["newmtl A", "newmtl", "Kd 0.1 0.2 0.3"] =
      [("A", { defaultMat with diffuse := [0.1, 0.2, 0.3] })] ∧
    parse_mtl_lines ["newmtl", "Kd 0.1 0.2 0.3"] = [] := by
  refine ⟨rfl, ?_, by decide, by decide⟩
  rw [List.foldl_cons]
  rfl

/-- C4: on any state with a current material, the lines Tr 0.3 and d 0.7 are
interchangeable - they produce identical states - and both set the
transparency of every entry named by the current material to exactly 0.7
(whose rational value is 7/10), leaving everything else unchanged. -/
theorem C4_tr_d_equivalent (mats : List (String × MTLMat)) (cur : String) :
    processLine ⟨mats, some cur⟩ "Tr 0.3" = processLine ⟨mats, some cur⟩ "d 0.7" ∧
    (processLine ⟨mats, some cur⟩ "d 0.7").materials =
      mats.map (fun q => if q.1 == cur then (q.1, { q.2 with transparency := 0.7 }) else q) ∧
    (processLine ⟨mats, some cur⟩ "d 0.7").current = some cur ∧
    Dec.toRat 0.7 = 7 / 10 := by
  refine ⟨rfl, rfl, rfl, ?_⟩
  have h : (0.7 : Dec) = ⟨7, 1⟩ := by decide
  rw [h]
  norm_num [Dec.toRat]

/-- C6: parse_color is total and shaped as specified: every input yields a
list of exactly 3 values; a single numeric token v yields [v, v, v]; and
every failure case - no tokens, exactly two tokens, a single non-numeric
token, or at least three tokens with a non-numeric among the first three -
yields the fixed default (0.8, 0.8, 0.8). -/
theorem C6_parse_color_total (s : String) :
    (parse_color s).length = 3 ∧
    (∀ t, pySplit s = [t] → ∀ v, pyFloat t = some v → parse_color s = [v, v, v]) ∧
    ((pySplit s).length = 0 ∨ (pySplit s).length = 2 ∨
        (∃ t, pySplit s = [t] ∧ pyFloat t = none) ∨
        (3 ≤ (pySplit s).length ∧ ∃ t ∈ (pySplit s).take 3, pyFloat t = none) →
      parse_color s = [0.8, 0.8, 0.8]) := by
  refine ⟨?_, ?_, ?_⟩
  · unfold parse_color
    dsimp only
    split
    · split <;> rfl
    · split
      · split <;> rfl
      · rfl
  · intro t ht v hv
    simp [parse_color, ht, hv]
  · intro h
    rcases h with h | h | ⟨t, ht, hn⟩ | ⟨hlen, t, htmem, hn⟩
    · rw [List.length_eq_zero] at h
      simp [parse_color, h]
    · rw [List.length_eq_two] at h
      obtain ⟨a, b, hab⟩ := h
      simp [parse_color, hab]
    · simp [parse_color, ht, hn]
    · rcases hp : pySplit s with _ | ⟨a, _ | ⟨b, _ | ⟨c, restp⟩⟩⟩ <;>
        rw [hp] at hlen htmem <;> simp at hlen htmem
      · -- parts = a :: b :: c :: restp
        unfold parse_color
        rw [hp]
        rcases htmem with rfl | rfl | rfl
        · simp [hn]
        · cases hfa : pyFloat a <;> simp [hfa, hn]
        · cases hfa : pyFloat a <;> cases hfb : pyFloat b <;> simp [hfa, hfb, hn]

/-- C6 witness: the single-token and failure branches at concrete inputs. -/
theorem C6_parse_color_total_witness :
    parse_color "0.5" = [0.5, 0.5, 0.5] ∧ parse_color "x y z" = [0.8, 0.8, 0.8] :=
  ⟨(C6_parse_color_total "0.5").2.1 "0.5" (by decide) 0.5 (by decide),
   (C6_parse_color_total "x y z").2.2
     (Or.inr (Or.inr (Or.inr ⟨by decide, "x", by decide, by decide⟩)))⟩

/-- C2: assembly fails with the empty-geometry category exactly when every
group has zero vertices (including the no-groups case); with at least one
nonempty group it succeeds, returning the groups in order where each keeps
its original visual material if it had one and receives the synthesized
default otherwise, so every returned group carries a material. -/
theorem C2_assemble (gs : List GeomGroup) :
    ((∀ g ∈ gs, g.vertexCount = 0) → assemble gs = Except.error ConvError.EmptyGeometry) ∧
    ((∃ g ∈ gs, 0 < g.vertexCount) →
      assemble gs =
        Except.ok (gs.map (fun g => if g.visual.isSome then g
          else { g with visual := some Visual.defaultSimple })) ∧
      ∀ g ∈ gs.map (fun g => if g.visual.isSome then g
          else { g with visual := some Visual.defaultSimple }), g.visual.isSome = true) := by
  constructor
  · intro h
    unfold assemble
    rw [if_pos]
    rw [Bool.or_eq_true]
    right
    rw [List.all_eq_true]
    intro g hg
    rw [beq_iff_eq]
    exact h g hg
  · rintro ⟨g, hg, hpos⟩
    have hcond : (gs.isEmpty || gs.all fun m => m.vertexCount == 0) = false := by
      rw [Bool.or_eq_false_iff]
      constructor
      · rcases gs with _ | _
        · simp at hg
        · rfl
      · rw [Bool.eq_false_iff]
        intro hall
        rw [List.all_eq_true] at hall
        have := hall g hg
        rw [beq_iff_eq] at this
        omega
    constructor
    · unfold assemble
      rw [hcond]
      rfl
    · intro g' hg'
      rw [List.mem_map] at hg'
      obtain ⟨g0, _, rfl⟩ := hg'
      cases hv : g0.visual with
      | none => simp [hv]
      | some v => simp [hv]

/-- C2 witness: all-empty groups fail, a nonempty group succeeds with the
default material attached. -/
theorem C2_assemble_witness :
    assemble [⟨0, none⟩] = Except.error ConvError.EmptyGeometry ∧
    assemble [⟨3, none⟩] = Except.ok [⟨3, some Visual.defaultSimple⟩] := by
  constructor
  · exact (C2_assemble [⟨0, none⟩]).1 (by decide)
  · exact ((C2_assemble [⟨3, none⟩]).2 ⟨⟨3, none⟩, by simp, by decide⟩).1

/-- C3: filesystem errors on the geometry file itself are fatal to that
single conversion and surface with their specific category: a missing input
is NotFound, an existing regular input with the wrong extension is
InvalidFormat, and - once the input validates - a pre-existing output
without overwrite permission is AlreadyExists. -/
theorem C3_filesystem_error_categories (env : ConvEnv) :
    (env.fs.pathExists env.input_path = false →
      convert_obj_to_glb env = Except.error ConvError.NotFound) ∧
    (env.fs.pathExists env.input_path = true → env.fs.isFile env.input_path = true →
      pyLower (pathSuffix env.input_path) ≠ ".obj" →
      convert_obj_to_glb env = Except.error ConvError.InvalidFormat) ∧
    (validate_input_file env.fs env.input_path = Except.ok env.input_path →
      env.fs.pathExists env.output_path = true → env.overwrite = false →
      convert_obj_to_glb env = Except.error ConvError.AlreadyExists) := by
  refine ⟨?_, ?_, ?_⟩
  · intro h
    unfold convert_obj_to_glb validate_input_file
    rw [h]
    rfl
  · intro h1 h2 h3
    unfold convert_obj_to_glb validate_input_file
    rw [h1, h2, if_neg (by simp), if_neg (by simp), if_pos h3]
  · intro h1 h2 h3
    unfold convert_obj_to_glb validate_output_file
    rw [h1, h2, h3]
    rfl

/-- C3 witness: each category at a concrete environment. -/
theorem C3_filesystem_error_categories_witness :
    convert_obj_to_glb
        { fs := ⟨fun _ => false, fun _ => false⟩, input_path := "m.obj",
          output_path := "m.glb", overwrite := false,
          mtlEnv := ⟨⟨false, false, []⟩, ⟨fun _ => false, fun _ => false, fun _ => none⟩, "d"⟩,
          loadFails := false, loadedMeshes := [], exportOk := true,
          outputPathFails := false } =
      Except.error ConvError.NotFound ∧
    convert_obj_to_glb
        { fs := ⟨fun _ => true, fun _ => true⟩, input_path := "m.txt",
          output_path := "m.glb", overwrite := true,
          mtlEnv := ⟨⟨false, false, []⟩, ⟨fun _ => false, fun _ => false, fun _ => none⟩, "d"⟩,
          loadFails := false, loadedMeshes := [], exportOk := true,
          outputPathFails := false } =
      Except.error ConvError.InvalidFormat ∧
    convert_obj_to_glb
        { fs := ⟨fun _ => true, fun _ => true⟩, input_path := "m.obj",
          output_path := "m.glb", overwrite := false,
          mtlEnv := ⟨⟨false, false, []⟩, ⟨fun _ => false, fun _ => false, fun _ => none⟩, "d"⟩,
          loadFails := false, loadedMeshes := [], exportOk := true,
          outputPathFails := false } =
      Except.error ConvError.AlreadyExists :=
  ⟨(C3_filesystem_error_categories _).1 rfl,
   (C3_filesystem_error_categories _).2.1 rfl rfl (by decide),
   (C3_filesystem_error_categories _).2.2 rfl rfl rfl⟩

/-- C7: texture resolution probes exactly the three candidates - the
reference itself, source_dir/reference, source_dir/basename(reference) - in
that fixed order: the result is none exactly when all three probes fail
(no error is raised), a resolving first candidate always wins (in particular
over a second candidate that also resolves), and each later candidate is
consulted only when every earlier one failed. -/
theorem C7_candidate_order (fs : TexFS) (obj_dir texture_path : String) :
    (load_texture fs obj_dir texture_path = none ↔
      ∀ c ∈ textureCandidates obj_dir texture_path, tryCand fs c = none) ∧
    (∀ img, tryCand fs texture_path = some img →
      load_texture fs obj_dir texture_path = some img) ∧
    (tryCand fs texture_path = none →
      ∀ img, tryCand fs (pathJoin obj_dir texture_path) = some img →
        load_texture fs obj_dir texture_path = some img) ∧
    (tryCand fs texture_path = none →
      tryCand fs (pathJoin obj_dir texture_path) = none →
      load_texture fs obj_dir texture_path =
        tryCand fs (pathJoin obj_dir (pathName texture_path))) := by
  cases h1 : tryCand fs texture_path with
  | some img1 =>
    have hl : load_texture fs obj_dir texture_path = some img1 := by
      simp [load_texture, textureCandidates, tryPaths, h1]
    refine ⟨?_, ?_, ?_, ?_⟩
    · constructor
      · intro h
        rw [hl] at h
        simp at h
      · intro hall
        have hc := hall texture_path (by simp [textureCandidates])
        rw [h1] at hc
        simp at hc
    · intro img h
      simp only [Option.some.injEq] at h
      exact h ▸ hl
    · intro hnone
      simp at hnone
    · intro hnone
      simp at hnone
  | none =>
    cases h2 : tryCand fs (pathJoin obj_dir texture_path) with
    | some img2 =>
      have hl : load_texture fs obj_dir texture_path = some img2 := by
        simp [load_texture, textureCandidates, tryPaths, h1, h2]
      refine ⟨?_, ?_, ?_, ?_⟩
      · constructor
        · intro h
          rw [hl] at h
          simp at h
        · intro hall
          have hc := hall (pathJoin obj_dir texture_path) (by simp [textureCandidates])
          rw [h2] at hc
          simp at hc
      · intro img h
        simp at h
      · intro _ img h
        simp only [Option.some.injEq] at h
        exact h ▸ hl
      · intro _ hc
        simp at hc
    | none =>
      have hl : load_texture fs obj_dir texture_path =
          tryCand fs (pathJoin obj_dir (pathName texture_path)) := by
        simp [load_texture, textureCandidates, tryPaths, h1, h2]
        cases tryCand fs (pathJoin obj_dir (pathName texture_path)) <;> rfl
      refine ⟨?_, ?_, ?_, ?_⟩
      · rw [hl]
        constructor
        · intro h c hc
          simp [textureCandidates] at hc
          rcases hc with rfl | rfl | rfl
          · exact h1
          · exact h2
          · exact h
        · intro hall
          exact hall (pathJoin obj_dir (pathName texture_path)) (by simp [textureCandidates])
      · intro img h
        simp at h
      · intro _ img h
        simp at h
      · intro _ _
        exact hl

/-- C7 witness: a reference resolvable both as itself and inside the source
directory resolves to the first candidate's image, at a concrete filesystem
where the two candidates decode to distinguishable images. -/
theorem C7_candidate_order_witness :
    load_texture
        ⟨fun p => p == "a.png" || p == "dir/a.png",
         fun p => p == "a.png" || p == "dir/a.png",
         fun p => if p == "a.png" then some ⟨"RGB"⟩
                  else if p == "dir/a.png" then some ⟨"RGBA"⟩ else none⟩
        "dir" "a.png" = some ⟨"RGB"⟩ :=
  (C7_candidate_order _ "dir" "a.png").2.1 ⟨"RGB"⟩ rfl

/-- C8: with no sibling material file, and likewise whenever parsing yields
an empty dictionary (including the unreadable-file case), process_materials
returns exactly the single synthetic default material with an empty textures
mapping; and in every case the returned materials mapping is nonempty (and
the function is total, hence never raises). -/
theorem C8_default_material_fallback (env : MtlEnv) :
    (env.mtl.fileExists = false →
      process_materials env = ([("default", defaultMat)], [])) ∧
    (parse_mtl_file env.mtl = [] →
      process_materials env = ([("default", defaultMat)], [])) ∧
    (process_materials env).1 ≠ [] := by
  refine ⟨?_, ?_, ?_⟩
  · intro h
    unfold process_materials
    rw [h]
    rfl
  · intro h
    unfold process_materials
    cases hex : env.mtl.fileExists
    · rfl
    · rw [h]
      rfl
  · unfold process_materials
    cases hex : env.mtl.fileExists
    · simp [create_default_material]
    · cases hp : (parse_mtl_file env.mtl).isEmpty
      · have hne : parse_mtl_file env.mtl ≠ [] := by
          intro hnil
          rw [hnil] at hp
          simp at hp
        simpa [hp] using hne
      · simp [hp, create_default_material]

/-- C8 witness: a source file with no sibling material file. -/
theorem C8_default_material_fallback_witness :
    process_materials
        ⟨⟨false, false, []⟩, ⟨fun _ => false, fun _ => false, fun _ => none⟩, "d"⟩ =
      ([("default", defaultMat)], []) :=
  (C8_default_material_fallback _).1 rfl

/-- Filtering a list by a predicate and by its negation partitions it. -/
theorem length_filter_partition {α : Type} (p : α → Bool) (l : List α) :
    (l.filter p).length + (l.filter (fun x => !(p x))).length = l.length := by
  induction l with
  | nil => rfl
  | cons x rest ih =>
    cases hx : p x <;> simp [List.filter_cons, hx] <;> omega

/-- When no remaining file's output-path step raises, the batch loop tallies
successes and failures on top of any starting accumulator. -/
theorem convert_batch_loop_spec (files : List ConvEnv) : ∀ s f : Nat,
    (∀ e ∈ files, e.outputPathFails = false) →
    convert_batch_loop files s f =
      some (s + (files.filter (fun e => convertOk e)).length,
        f + (files.filter (fun e => !(convertOk e))).length) := by
  induction files with
  | nil =>
    intro s f _
    simp [convert_batch_loop]
  | cons e rest ih =>
    intro s f h
    have he : e.outputPathFails = false := h e (by simp)
    have hrest : ∀ x ∈ rest, x.outputPathFails = false := fun x hx => h x (by simp [hx])
    cases hc : convertOk e with
    | true =>
      have hstep : convert_batch_loop (e :: rest) s f = convert_batch_loop rest (s + 1) f := by
        simp [convert_batch_loop, he, hc]
      rw [hstep, ih (s + 1) f hrest]
      simp only [List.filter_cons, hc, Bool.not_true, Bool.false_eq_true, if_true, if_false,
        List.length_cons, Option.some.injEq, Prod.mk.injEq]
      exact ⟨by omega, trivial⟩
    | false =>
      have hstep : convert_batch_loop (e :: rest) s f = convert_batch_loop rest s (f + 1) := by
        simp [convert_batch_loop, he, hc]
      rw [hstep, ih s (f + 1) hrest]
      simp only [List.filter_cons, hc, Bool.not_false, Bool.false_eq_true, if_true, if_false,
        List.length_cons, Option.some.injEq, Prod.mk.injEq]
      exact ⟨trivial, by omega⟩

/-- The batch loop aborts - the exception escapes - whenever some remaining
file's output-path step raises. -/
theorem convert_batch_loop_abort (files : List ConvEnv) : ∀ s f : Nat,
    (∃ e ∈ files, e.outputPathFails = true) →
    convert_batch_loop files s f = none := by
  induction files with
  | nil =>
    intro s f h
    simp at h
  | cons e rest ih =>
    intro s f h
    cases hef : e.outputPathFails with
    | true => simp [convert_batch_loop, hef]
    | false =>
      have hrest : ∃ x ∈ rest, x.outputPathFails = true := by
        obtain ⟨x, hx, hfail⟩ := h
        rcases List.mem_cons.mp hx with rfl | hx2
        · rw [hef] at hfail
          cases hfail
        · exact ⟨x, hx2, hfail⟩
      cases hc : convertOk e <;> simp [convert_batch_loop, hef, hc, ih _ _ hrest]

/-- C9 counterexample: a two-file batch in which the first file converts
successfully on its own but generating the second file's output path raises.
The exception escapes the per-file tally to the batch-level handler: the
batch returns (0, 0), the first file's success is discarded, and the counts
do not sum to the 2 files found - one file's failure aborted the batch. -/
theorem C9_counterexample :
    convert_batch [envConvertOk] = (1, 0) ∧
    convert_batch [envConvertOk, envMkdirRaises] = (0, 0) ∧
    (convert_batch [envConvertOk, envMkdirRaises]).1 +
        (convert_batch [envConvertOk, envMkdirRaises]).2 ≠
      ([envConvertOk, envMkdirRaises] : List ConvEnv).length := by
  refine ⟨?_, ?_, ?_⟩ <;> decide

/-- C9 amended: when no file's per-file output-path step raises, the batch
processes every file - each outcome computed from that file's environment
alone, exceptions inside the single-file conversion already confined there
as a counted False - and the returned counts are the tallies, summing to
the number of files found.  When some file's output-path step raises,
however, that exception escapes the per-file scope: the batch aborts and
returns (0, 0), discarding the tallies. -/
theorem C9_batch_isolation (files : List ConvEnv) :
    ((∀ e ∈ files, e.outputPathFails = false) →
      convert_batch files =
        ((files.filter (fun e => convertOk e)).length,
         (files.filter (fun e => !(convertOk e))).length) ∧
      (convert_batch files).1 + (convert_batch files).2 = files.length) ∧
    ((∃ e ∈ files, e.outputPathFails = true) → convert_batch files = (0, 0)) := by
  constructor
  · intro h
    have hmain : convert_batch files =
        ((files.filter (fun e => convertOk e)).length,
         (files.filter (fun e => !(convertOk e))).length) := by
      unfold convert_batch
      cases files with
      | nil => rfl
      | cons e rest =>
        rw [if_neg (by simp), convert_batch_loop_spec (e :: rest) 0 0 h]
        simp
    refine ⟨hmain, ?_⟩
    rw [hmain]
    exact length_filter_partition _ files
  · intro h
    unfold convert_batch
    have hne : files.isEmpty = false := by
      obtain ⟨e, he, _⟩ := h
      cases files
      · simp at he
      · rfl
    rw [hne]
    simp only [Bool.false_eq_true, if_false]
    rw [convert_batch_loop_abort files 0 0 h]

/-- C9 witness: both branches at concrete batches - the clean single-file
batch tallies (1, 0), and the batch containing the file whose output-path
step raises returns (0, 0). -/
theorem C9_batch_isolation_witness :
    convert_batch [envConvertOk] = (1, 0) ∧
    convert_batch [envConvertOk, envMkdirRaises] = (0, 0) := by
  constructor
  · exact (((C9_batch_isolation [envConvertOk]).1 (by decide)).1).trans (by decide)
  · exact (C9_batch_isolation [envConvertOk, envMkdirRaises]).2
      ⟨envMkdirRaises, by simp, by decide⟩

/-- The accumulator pattern of load_all_textures: folding over the materials
appends exactly the per-material entries of the textures-carrying materials. -/
theorem load_all_textures_foldl (fs : TexFS) (obj_dir : String)
    (materials : List (String × Option (List (String × String))))
    (acc : List (String × List (String × Image))) :
    materials.foldl
        (fun acc p =>
          match p.2 with
          | none => acc
          | some texs => acc ++ [(p.1, load_material_textures fs obj_dir texs)])
        acc =
      acc ++ materials.filterMap
        (fun p => p.2.map (fun texs => (p.1, load_material_textures fs obj_dir texs))) := by
  induction materials generalizing acc with
  | nil => simp
  | cons m rest ih =>
    cases hm : m.2 with
    | none => simp [List.filterMap_cons, hm, ih]
    | some texs => simp [List.filterMap_cons, hm, ih]

/-- The inner fold keeps exactly the slots whose reference resolves. -/
theorem load_material_textures_spec (fs : TexFS) (obj_dir : String)
    (texs : List (String × String)) :
    load_material_textures fs obj_dir texs =
      texs.filterMap
        (fun t => (load_texture fs obj_dir t.2).map (fun img => (t.1, img))) := by
  unfold load_material_textures
  suffices h : ∀ acc : List (String × Image),
      texs.foldl
          (fun acc t =>
            match load_texture fs obj_dir t.2 with
            | some img => acc ++ [(t.1, img)]
            | none => acc)
          acc =
        acc ++ texs.filterMap
          (fun t => (load_texture fs obj_dir t.2).map (fun img => (t.1, img))) by
    simpa using h []
  induction texs with
  | nil => simp
  | cons t rest ih =>
    intro acc
    cases ht : load_texture fs obj_dir t.2 with
    | none => simp [List.filterMap_cons, ht, ih]
    | some img => simp [List.filterMap_cons, ht, ih]

/-- C10: the texture bulk-loader returns one entry per input material that
carries a textures field - the entry is present (as the per-material map of
exactly the slots whose reference resolved) even when that map is empty -
and materials without a textures field contribute nothing. -/
theorem C10_load_all_textures_keys (fs : TexFS) (obj_dir : String)
    (materials : List (String × Option (List (String × String)))) :
    load_all_textures fs obj_dir materials =
      materials.filterMap
        (fun p => p.2.map (fun texs =>
          (p.1, texs.filterMap
            (fun t => (load_texture fs obj_dir t.2).map (fun img => (t.1, img)))))) ∧
    ∀ p ∈ materials, p.2.isSome = true →
      p.1 ∈ (load_all_textures fs obj_dir materials).map Prod.fst := by
  have hmain : load_all_textures fs obj_dir materials =
      materials.filterMap
        (fun p => p.2.map (fun texs =>
          (p.1, texs.filterMap
            (fun t => (load_texture fs obj_dir t.2).map (fun img => (t.1, img)))))) := by
    unfold load_all_textures
    rw [load_all_textures_foldl]
    simp only [List.nil_append]
    congr 1
    funext p
    cases p.2 with
    | none => rfl
    | some texs => simp [load_material_textures_spec]
  refine ⟨hmain, ?_⟩
  intro p hp hsome
  rw [hmain, List.mem_map]
  cases hp2 : p.2 with
  | none => rw [hp2] at hsome; simp at hsome
  | some texs =>
    refine ⟨(p.1, texs.filterMap
      (fun t => (load_texture fs obj_dir t.2).map (fun img => (t.1, img)))), ?_, rfl⟩
    rw [List.mem_filterMap]
    exact ⟨p, hp, by rw [hp2]; rfl⟩

/-- C10 witness: a material whose only texture reference does not resolve
still gets its (empty) entry. -/
theorem C10_load_all_textures_keys_witness :
    "M" ∈ (load_all_textures ⟨fun _ => false, fun _ => false, fun _ => none⟩ "d"
        [("M", some [("diffuse", "missing.png")])]).map Prod.fst :=
  (C10_load_all_textures_keys ⟨fun _ => false, fun _ => false, fun _ => none⟩ "d"
      [("M", some [("diffuse", "missing.png")])]).2
    ("M", some [("diffuse", "missing.png")]) (by simp) rfl

/-- Overwriting the value at a key leaves the key sequence unchanged. -/
theorem map_fst_overwrite {α : Type} (m : List (String × α)) (k : String) (v : α) :
    (m.map (fun p => if p.1 == k then (k, v) else p)).map Prod.fst = m.map Prod.fst := by
  induction m with
  | nil => rfl
  | cons p rest ih =>
    simp only [List.map_cons, ih, List.cons.injEq]
    refine ⟨?_, trivial⟩
    by_cases h : p.1 = k
    · simp [h]
    · simp [h]

/-- Dictionary assignment inserts the key exactly as insKey describes. -/
theorem keys_upsert {α : Type} (m : List (String × α)) (k : String) (v : α) :
    (upsert m k v).map Prod.fst = insKey (m.map Prod.fst) k := by
  unfold upsert insKey
  have hany : (m.any fun p => p.1 == k) = true ↔ k ∈ m.map Prod.fst := by
    simp [List.any_eq_true, List.mem_map]
  by_cases hk : k ∈ m.map Prod.fst
  · rw [if_pos (hany.mpr hk), if_pos hk, map_fst_overwrite]
  · rw [if_neg (fun hc => hk (hany.mp hc)), if_neg hk]
    simp

/-- Mutating the record at a key leaves the key sequence unchanged. -/
theorem keys_updateAt {α : Type} (m : List (String × α)) (k : String) (f : α → α) :
    (updateAt m k f).map Prod.fst = m.map Prod.fst := by
  unfold updateAt
  induction m with
  | nil => rfl
  | cons p rest ih =>
    simp only [List.map_cons, ih, List.cons.injEq]
    refine ⟨?_, trivial⟩
    by_cases h : p.1 = k
    · simp [h]
    · simp [h]

/-- The key sequence after one dispatch: a valid newmtl inserts its name,
everything else leaves the keys unchanged. -/
theorem keys_dispatch (st : MTLState) (parts : List String) :
    (dispatch st parts).materials.map Prod.fst =
      (match parts with
        | command :: name :: _ =>
          if command = "newmtl" then insKey (st.materials.map Prod.fst) name
          else st.materials.map Prod.fst
        | _ => st.materials.map Prod.fst) := by
  rcases parts with _ | ⟨command, _ | ⟨name, rest⟩⟩
  · rfl
  · by_cases hc : command = "newmtl"
    · simp [dispatch, hc]
    · cases hcur : st.current with
      | none => simp [dispatch, hc, hcur]
      | some cur =>
        cases hpu : propUpdate command "" with
        | none => simp [dispatch, hc, hcur, hpu]
        | some f => simp [dispatch, hc, hcur, hpu, keys_updateAt]
  · by_cases hc : command = "newmtl"
    · simp [dispatch, hc, keys_upsert]
    · cases hcur : st.current with
      | none => simp [dispatch, hc, hcur]
      | some cur =>
        cases hpu : propUpdate command name with
        | none => simp [dispatch, hc, hcur, hpu]
        | some f => simp [dispatch, hc, hcur, hpu, keys_updateAt]

/-- The key sequence after one line: a valid newmtl line inserts its name,
any other line leaves the keys unchanged. -/
theorem keys_processLine (st : MTLState) (line : String) :
    (processLine st line).materials.map Prod.fst =
      (match lineNewmtlName line with
        | some n => insKey (st.materials.map Prod.fst) n
        | none => st.materials.map Prod.fst) := by
  unfold processLine lineNewmtlName
  dsimp only
  split_ifs with h1 h2
  · rfl
  · rfl
  · rw [keys_dispatch]
    generalize (split1Chars (stripChars line.data)).map String.mk = parts
    rcases parts with _ | ⟨command, _ | ⟨name, rest⟩⟩
    · rfl
    · rfl
    · by_cases hc : command = "newmtl" <;> simp [hc]

/-- Splitting off the head of newmtlNames. -/
theorem newmtlNames_cons (line : String) (rest : List String) :
    newmtlNames (line :: rest) =
      (match lineNewmtlName line with
        | some n => n :: newmtlNames rest
        | none => newmtlNames rest) := by
  unfold newmtlNames
  rw [List.filterMap_cons]
  cases lineNewmtlName line <;> rfl

/-- The key sequence of the whole scan is the insKey fold of the newmtl
names over the starting keys. -/
theorem keys_foldl_processLine (lines : List String) (st : MTLState) :
    ((lines.foldl processLine st).materials).map Prod.fst =
      (newmtlNames lines).foldl insKey (st.materials.map Prod.fst) := by
  induction lines generalizing st with
  | nil => rfl
  | cons line rest ih =>
    rw [List.foldl_cons, ih, newmtlNames_cons]
    have hk := keys_processLine st line
    cases hn : lineNewmtlName line with
    | none =>
      rw [hn] at hk
      rw [hk]
    | some n =>
      rw [hn] at hk
      rw [List.foldl_cons, hk]

/-- insKey preserves key-sequence distinctness. -/
theorem insKey_nodup (ks : List String) (k : String) (h : ks.Nodup) :
    (insKey ks k).Nodup := by
  unfold insKey
  split_ifs with hm
  · exact h
  · simp [List.nodup_append, h, hm]

/-- insKey inserts exactly the given key into the key set. -/
theorem insKey_toFinset (ks : List String) (k : String) :
    (insKey ks k).toFinset = insert k ks.toFinset := by
  unfold insKey
  split_ifs with hm
  · rw [Finset.insert_eq_self.mpr (List.mem_toFinset.mpr hm)]
  · rw [List.toFinset_append, Finset.union_comm]
    simp [Finset.insert_eq]

/-- Folding insKey over a name list keeps the keys distinct and accumulates
exactly the set of names. -/
theorem insKey_foldl_spec (names : List String) (ks : List String) (h : ks.Nodup) :
    (names.foldl insKey ks).Nodup ∧
      (names.foldl insKey ks).toFinset = ks.toFinset ∪ names.toFinset := by
  induction names generalizing ks with
  | nil => simpa using h
  | cons n rest ih =>
    rw [List.foldl_cons]
    obtain ⟨hnd, hfin⟩ := ih (insKey ks n) (insKey_nodup ks n h)
    refine ⟨hnd, ?_⟩
    rw [hfin, insKey_toFinset, List.toFinset_cons, Finset.insert_union, Finset.union_insert]

/-- C5: the parsed mapping has exactly one entry per distinct newmtl name -
duplicates overwrite rather than append - and a duplicated newmtl resets the
record to the defaults before the second block's properties apply: two
newmtl Foo blocks leave a single Foo entry carrying only the second block's
properties. -/
theorem C5_duplicate_newmtl_overwrites (lines : List String) :
    (parse_mtl_lines lines).length = (newmtlNames lines).toFinset.card ∧
    ((parse_mtl_lines lines).map Prod.fst).Nodup ∧
    parse_mtl_lines ["newmtl Foo", "Kd 0.1 0.2 0.3", "newmtl Foo", "Ns 5"] =
      [("Foo", { defaultMat with shininess := 5 })] := by
  have hkeys : ((parse_mtl_lines lines).map Prod.fst) =
      (newmtlNames lines).foldl insKey [] := by
    unfold parse_mtl_lines
    rw [keys_foldl_processLine]
    rfl
  have hspec := insKey_foldl_spec (newmtlNames lines) [] (by simp)
  refine ⟨?_, ?_, by decide⟩
  · have hlen : (parse_mtl_lines lines).length =
        ((parse_mtl_lines lines).map Prod.fst).length := by simp
    rw [hlen, hkeys, ← List.toFinset_card_of_nodup hspec.1, hspec.2]
    simp
  · rw [hkeys]
    exact hspec.1
